import Mathlib

/-!
Shallow embedding of `packages/nodes-base/nodes/Zammad/GenericFunctions.ts`
(the Zammad integration helpers of the n8n workflow engine): request
building, error translation, pagination, and the load-option field
utilities, together with theorems checking the specification's claims.

JS plain objects (`IDataObject`) are modelled as ordered association
lists with JS assignment/read semantics; JS strings as Lean strings.
The HTTP transport is a parameter: for the error-handling claims it is an
arbitrary function returning either a response or a caught error value,
and for the pagination claims it is a fixed finite list of pages, where a
request for page `k` returns the `k`-th entry (empty beyond the end).
-/

set_option autoImplicit false

namespace ZammadModel

/-- Scalar values stored in a JS `IDataObject` (query string / body); this
module only ever writes numbers (`per_page`, `page`) but callers may have
stored strings. -/
inductive JVal where
  | num (n : Nat)
  | str (s : String)
deriving DecidableEq, Repr

/-- A JS plain object used for `body` / `qs`: an ordered association list;
keys are unique by construction of `setKey`. -/
abbrev IDataObject := List (String × JVal)

/-- JS property write `o.k = v`: update in place when the key exists
(keeping its position), otherwise append the new entry. -/
def setKey : IDataObject → String → JVal → IDataObject
  | [], k, v => [(k, v)]
  | (k', v') :: rest, k, v =>
    if k' = k then (k, v) :: rest else (k', v') :: setKey rest k v

/-- JS property read `o.k`: `none` models an absent property. -/
def getKey : IDataObject → String → Option JVal
  | [], _ => none
  | (k', v') :: rest, k => if k' = k then some v' else getKey rest k

/-- Numeric read of `qs.page`, used by the JS increment `qs.page++`.
The fallback `0` is unreachable in this module: the fetcher writes
`qs.page = 1` before the first read. -/
def pageOf (qs : IDataObject) : Nat :=
  match getKey qs "page" with
  | some (JVal.num n) => n
  | _ => 0

/-- Function `tolerateTrailingSlash` of the source:
`url.endsWith('/') ? url.substr(0, url.length - 1) : url`. -/
def tolerateTrailingSlash (url : String) : String :=
  if url.toList.getLast? = some '/' then String.mk url.toList.dropLast else url

/-- Credentials record (`Zammad.Credentials`): the `authType` discriminator
selects which of the remaining members are meaningful. -/
structure Credentials where
  authType : String
  baseUrl : String
  username : String
  password : String
  accessToken : String
  allowUnauthorizedCerts : Bool
deriving DecidableEq, Repr

/-- Transport-level basic-auth pair (`options.auth`). -/
structure AuthOptions where
  user : String
  pass : String
deriving DecidableEq, Repr

/-- The request descriptor (`OptionsWithUri`) built by `zammadApiRequest`.
Optional members model JS properties that may be absent (after `delete`)
or never assigned. -/
structure RequestOptions where
  method : String
  body : Option IDataObject
  qs : Option IDataObject
  uri : String
  json : Bool
  auth : Option AuthOptions
  headers : Option (List (String × String))
  rejectUnauthorized : Option Bool
deriving DecidableEq, Repr

/-- Construction of the request descriptor inside `zammadApiRequest`:
the initial `options` literal, the `authType` branches, and the two
`delete` statements for an empty `body` / `qs`
(`Object.keys(o).length` is `o.length` on the association-list model). -/
def buildOptions (credentials : Credentials) (method endpoint : String)
    (body qs : IDataObject) : RequestOptions :=
  let options : RequestOptions :=
    { method := method, body := some body, qs := some qs, uri := "",
      json := true, auth := none, headers := none, rejectUnauthorized := none }
  let options :=
    if credentials.authType = "basicAuth" then
      let baseUrl := tolerateTrailingSlash credentials.baseUrl
      { options with
        auth := some { user := credentials.username, pass := credentials.password },
        uri := baseUrl ++ "/api/v1" ++ endpoint,
        rejectUnauthorized := some (! credentials.allowUnauthorizedCerts) }
    else if credentials.authType = "tokenAuth" then
      let baseUrl := tolerateTrailingSlash credentials.baseUrl
      { options with
        headers := some [("Authorization", "Token token=" ++ credentials.accessToken)],
        uri := baseUrl ++ "/api/v1" ++ endpoint,
        rejectUnauthorized := some (! credentials.allowUnauthorizedCerts) }
    else options
  let options := if body.length = 0 then { options with body := none } else options
  let options := if qs.length = 0 then { options with qs := none } else options
  options

/-- The nested payload of a caught transport error: `error.error`, whose
own `error` member (the message consulted by the catch handler) may itself
be absent. -/
structure InnerError where
  error : Option String
deriving DecidableEq, Repr

/-- A caught transport error value: `error.error` is absent (`none`) when
the failure carries no structured payload. -/
structure RemoteError where
  error : Option InnerError
deriving DecidableEq, Repr

/-- Outcome of the catch block: either the structured `NodeApiError`
wrapping the (possibly rewritten) error with the node's identity, or the
raw `TypeError` raised by dereferencing `error.error.error` when
`error.error` is absent. -/
inductive CatchResult where
  | nodeApiError (node : String) (error : RemoteError)
  | typeErrorFault
deriving DecidableEq, Repr

/-- The catch block of `zammadApiRequest`: reads `error.error.error`
(faulting when `error.error` is absent), rewrites the one literal message
`"Object already exists!"`, and throws `NodeApiError(this.getNode(), error)`. -/
def handleCatch (node : String) (error : RemoteError) : CatchResult :=
  match error.error with
  | none => CatchResult.typeErrorFault
  | some inner =>
    if inner.error = some "Object already exists!" then
      CatchResult.nodeApiError node
        { error with error := some { inner with error := some "An entity with this name already exists." } }
    else
      CatchResult.nodeApiError node error

/-- Function `zammadApiRequest` over an abstract transport
(`this.helpers.request`): build the options, run the transport, and on
failure run the catch block; `Except.error` models a raised exception. -/
def zammadApiRequest {α : Type} (node : String)
    (transport : RequestOptions → Except RemoteError α)
    (credentials : Credentials) (method endpoint : String)
    (body qs : IDataObject) : Except CatchResult α :=
  let options := buildOptions credentials method endpoint body qs
  match transport options with
  | Except.ok response => Except.ok response
  | Except.error e => Except.error (handleCatch node e)

/-- Result of a paginated fetch: the returned items, the `qs` snapshot
sent with each request (in order), and the caller's `qs` object as it
stands after the call (the code mutates it in place). -/
structure FetchResult (α : Type) where
  returnData : List α
  requests : List IDataObject
  finalQs : IDataObject
deriving DecidableEq, Repr

/-- The `do … while (responseData.length)` loop of
`zammadApiRequestAllItems`, on the success path, with the remote modelled
as the list of pages still ahead of the current `qs.page` (page numbers
advance by exactly one per request, so the loop consumes the remote's
pages in order; an empty remainder returns the empty page). Each
iteration fetches, appends, early-returns `returnData.slice(0, limit)`
when `limit` is set and strictly exceeded, performs `qs.page++`, and
repeats while the page just fetched was non-empty. -/
def allItemsGo {α : Type} (limit : Nat) (qs : IDataObject) (acc : List α)
    (trace : List IDataObject) : List (List α) → FetchResult α
  | [] =>
    let returnData := acc ++ []
    let requests := trace ++ [qs]
    if limit ≠ 0 ∧ limit < returnData.length then
      { returnData := returnData.take limit, requests := requests, finalQs := qs }
    else
      { returnData := returnData, requests := requests,
        finalQs := setKey qs "page" (JVal.num (pageOf qs + 1)) }
  | responseData :: rest =>
    let returnData := acc ++ responseData
    let requests := trace ++ [qs]
    if limit ≠ 0 ∧ limit < returnData.length then
      { returnData := returnData.take limit, requests := requests, finalQs := qs }
    else
      let qs' := setKey qs "page" (JVal.num (pageOf qs + 1))
      if responseData.length = 0 then
        { returnData := returnData, requests := requests, finalQs := qs' }
      else allItemsGo limit qs' returnData requests rest

/-- Function `zammadApiRequestAllItems`: writes `qs.per_page = 20` and
`qs.page = 1` into the caller's `qs` object, then runs the fetch loop
(`limit = 0` means unlimited). -/
def zammadApiRequestAllItems {α : Type} (remote : List (List α))
    (limit : Nat) (qs : IDataObject) : FetchResult α :=
  let qs := setKey qs "per_page" (JVal.num 20)
  let qs := setKey qs "page" (JVal.num 1)
  allItemsGo limit qs [] [] remote

/-- A field record (`Zammad.Field`): the members this module reads. -/
structure Field where
  name : String
  display : String
  object : String
  created_by_id : Nat
deriving DecidableEq, Repr

/-- A dropdown option as produced by `fieldToLoadOption`. -/
structure LoadOption where
  name : String
  value : String
deriving DecidableEq, Repr

/-- JS `String.prototype.replace` with a plain-string pattern: replace the
first occurrence only (the whole input is returned unchanged when the
pattern does not occur). -/
def replaceFirstList (pat rep : List Char) : List Char → List Char
  | [] => if pat = [] then rep else []
  | c :: cs =>
    if pat.isPrefixOf (c :: cs) then rep ++ (c :: cs).drop pat.length
    else c :: replaceFirstList pat rep cs

/-- Function `prettifyDisplayName`: `fieldName.replace('name', ' Name')`. -/
def prettifyDisplayName (fieldName : String) : String :=
  String.mk (replaceFirstList "name".toList " Name".toList fieldName.toList)

/-- Function `fieldToLoadOption`:
`{ name: prettifyDisplayName(i.display), value: i.name }`. -/
def fieldToLoadOption (i : Field) : LoadOption :=
  { name := prettifyDisplayName i.display, value := i.name }

/-! Helper lemmas about the association-list object model. -/

@[simp]
theorem getKey_setKey_self (q : IDataObject) (k : String) (v : JVal) :
    getKey (setKey q k v) k = some v := by
  induction q with
  | nil => simp [setKey, getKey]
  | cons hd tl ih =>
    by_cases h : hd.1 = k <;> simp [setKey, getKey, h, ih]

theorem getKey_setKey_ne (q : IDataObject) (k k' : String) (v : JVal)
    (h : k ≠ k') : getKey (setKey q k v) k' = getKey q k' := by
  induction q with
  | nil => simp [setKey, getKey, h]
  | cons hd tl ih =>
    by_cases h' : hd.1 = k
    · simp [setKey, getKey, h', h]
    · by_cases h'' : hd.1 = k' <;> simp [setKey, getKey, h', h'', ih, Ne.symm h]

@[simp]
theorem pageOf_setKey_page (q : IDataObject) (n : Nat) :
    pageOf (setKey q "page" (JVal.num n)) = n := by
  simp [pageOf]

/-- Every invocation of the fetch loop issues at least one request. -/
theorem allItemsGo_requests_length {α : Type} (limit : Nat)
    (qs : IDataObject) (acc : List α) (trace : List IDataObject)
    (remaining : List (List α)) :
    trace.length + 1 ≤ (allItemsGo limit qs acc trace remaining).requests.length := by
  induction remaining generalizing qs acc trace with
  | nil =>
    simp only [allItemsGo]
    split <;> simp
  | cons p rest ih =>
    simp only [allItemsGo]
    split
    · simp
    · split
      · simp
      · exact le_trans (by simp) (ih _ _ _)

/-- The fetch loop writes only the key `"page"` into the query object. -/
theorem allItemsGo_finalQs_getKey {α : Type} (limit : Nat)
    (qs : IDataObject) (acc : List α) (trace : List IDataObject)
    (remaining : List (List α)) (k : String) (hk : k ≠ "page") :
    getKey (allItemsGo limit qs acc trace remaining).finalQs k = getKey qs k := by
  induction remaining generalizing qs acc trace with
  | nil =>
    simp only [allItemsGo]
    split
    · rfl
    · exact getKey_setKey_ne _ _ _ _ (fun h => hk h.symm)
  | cons p rest ih =>
    simp only [allItemsGo]
    split
    · rfl
    · split
      · exact getKey_setKey_ne _ _ _ _ (fun h => hk h.symm)
      · rw [ih]
        exact getKey_setKey_ne _ _ _ _ (fun h => hk h.symm)

/-- If the query object holds a numeric page at entry, it still does at
exit. -/
theorem allItemsGo_finalQs_page {α : Type} (limit : Nat)
    (qs : IDataObject) (acc : List α) (trace : List IDataObject)
    (remaining : List (List α)) (m : Nat)
    (h : getKey qs "page" = some (JVal.num m)) :
    ∃ n, getKey (allItemsGo limit qs acc trace remaining).finalQs "page" = some (JVal.num n) := by
  induction remaining generalizing qs acc trace m with
  | nil =>
    simp only [allItemsGo]
    split
    · exact ⟨m, h⟩
    · exact ⟨pageOf qs + 1, getKey_setKey_self _ _ _⟩
  | cons p rest ih =>
    simp only [allItemsGo]
    split
    · exact ⟨m, h⟩
    · split
      · exact ⟨pageOf qs + 1, getKey_setKey_self _ _ _⟩
      · exact ih _ _ _ (pageOf qs + 1) (getKey_setKey_self _ _ _)

/-! Claim theorems: normalization, field utilities, request building,
error handling. -/

/-- C5: for every string ending in "/", `tolerateTrailingSlash` returns the
string with exactly one trailing slash removed; for every string not ending
in "/", it returns the string unchanged. -/
theorem C5_tolerateTrailingSlash_spec :
    (∀ t : String, tolerateTrailingSlash (t ++ "/") = t) ∧
    (∀ s : String, s.toList.getLast? ≠ some '/' → tolerateTrailingSlash s = s) := by
  constructor
  · intro t
    unfold tolerateTrailingSlash
    have h1 : (t ++ "/").toList = t.toList ++ ['/'] := by
      simp [String.toList]
    rw [h1]
    simp only [List.getLast?_concat, if_pos rfl, List.dropLast_concat]
    cases t
    rfl
  · intro s h
    unfold tolerateTrailingSlash
    rw [if_neg h]

/-- Witness for C5 at the spec's own examples. -/
theorem C5_witness :
    tolerateTrailingSlash "https://h/" = "https://h" ∧
    tolerateTrailingSlash "https://h" = "https://h" := by
  constructor
  · have h := C5_tolerateTrailingSlash_spec.1 "https://h"
    have e : ("https://h" : String) ++ "/" = "https://h/" := by decide
    rw [e] at h
    exact h
  · exact C5_tolerateTrailingSlash_spec.2 "https://h" (by decide)

/-- C8: `fieldToLoadOption` returns a pair whose value is the field's raw
name and whose name is the display string with only the first occurrence of
"name" replaced by " Name"; in particular, on name/display "username" it
yields name "user Name" and value "username" (the third conjunct shows a
second occurrence is left untouched). -/
theorem C8_fieldToLoadOption_spec :
    (∀ f : Field, (fieldToLoadOption f).value = f.name ∧
      (fieldToLoadOption f).name = prettifyDisplayName f.display) ∧
    fieldToLoadOption
        { name := "username", display := "username", object := "User", created_by_id := 1 } =
      { name := "user Name", value := "username" } ∧
    prettifyDisplayName "namename" = " Namename" := by
  refine ⟨fun f => ⟨rfl, rfl⟩, ?_, ?_⟩ <;> decide

/-- C4: the catch block of `zammadApiRequest` rewrites the one message
"Object already exists!" to "An entity with this name already exists.",
re-raises every other message verbatim inside the same `NodeApiError`
wrapper, and propagates every transport failure (none is swallowed). -/
theorem C4_handleCatch_spec :
    (∀ (node : String) (err : RemoteError) (inner : InnerError),
      err.error = some inner → inner.error = some "Object already exists!" →
      handleCatch node err = CatchResult.nodeApiError node
        { err with
          error := some ({ inner with error := some "An entity with this name already exists." }) }) ∧
    (∀ (node : String) (err : RemoteError) (inner : InnerError) (m : String),
      err.error = some inner → inner.error = some m → m ≠ "Object already exists!" →
      handleCatch node err = CatchResult.nodeApiError node err) ∧
    (∀ {α : Type} (node : String) (transport : RequestOptions → Except RemoteError α)
      (c : Credentials) (method endpoint : String) (body qs : IDataObject)
      (err : RemoteError),
      transport (buildOptions c method endpoint body qs) = Except.error err →
      zammadApiRequest node transport c method endpoint body qs =
        Except.error (handleCatch node err)) := by
  refine ⟨?_, ?_, ?_⟩
  · intro node err inner h1 h2
    unfold handleCatch
    rw [h1]
    simp [h2]
  · intro node err inner m h1 h2 h3
    unfold handleCatch
    rw [h1]
    simp [h2, h3]
  · intro α node transport c method endpoint body qs err htr
    simp only [zammadApiRequest, htr]

/-- Witness for C4: the rewritten message and a verbatim message. -/
theorem C4_witness :
    handleCatch "Zammad" { error := some { error := some "Object already exists!" } } =
      CatchResult.nodeApiError "Zammad"
        { error := some { error := some "An entity with this name already exists." } } ∧
    handleCatch "Zammad" { error := some { error := some "boom" } } =
      CatchResult.nodeApiError "Zammad" { error := some { error := some "boom" } } := by
  constructor
  · exact C4_handleCatch_spec.1 "Zammad" _ _ rfl rfl
  · exact C4_handleCatch_spec.2.1 "Zammad" _ _ "boom" rfl rfl (by decide)

/-- C10: the catch handler dereferences `error.error.error` without a
guard: when the caught error value lacks a nested `error` object the
handler itself faults, and the caller receives the raw fault rather than a
structured `NodeApiError`. -/
theorem C10_handleCatch_fault :
    (∀ (node : String) (err : RemoteError), err.error = none →
      handleCatch node err = CatchResult.typeErrorFault ∧
      ∀ (node' : String) (e' : RemoteError),
        handleCatch node err ≠ CatchResult.nodeApiError node' e') ∧
    (∀ {α : Type} (node : String) (transport : RequestOptions → Except RemoteError α)
      (c : Credentials) (method endpoint : String) (body qs : IDataObject),
      transport (buildOptions c method endpoint body qs) = Except.error { error := none } →
      zammadApiRequest node transport c method endpoint body qs =
        Except.error CatchResult.typeErrorFault) := by
  constructor
  · intro node err h
    have hfault : handleCatch node err = CatchResult.typeErrorFault := by
      unfold handleCatch
      rw [h]
    exact ⟨hfault, fun node' e' => by rw [hfault]; intro hc; exact CatchResult.noConfusion hc⟩
  · intro α node transport c method endpoint body qs htr
    simp only [zammadApiRequest, htr]
    rfl

/-- Witness for C10 with a concrete transport failure lacking the nested
error object. -/
theorem C10_witness :
    zammadApiRequest (α := Unit) "Zammad" (fun _ => Except.error { error := none })
      { authType := "basicAuth", baseUrl := "https://h", username := "u", password := "p",
        accessToken := "", allowUnauthorizedCerts := false }
      "GET" "/users" [] [] = Except.error CatchResult.typeErrorFault := by
  exact C10_handleCatch_fault.2 "Zammad" (fun _ => Except.error { error := none })
    _ "GET" "/users" [] [] rfl

/-- C6: for both credential variants, the built request's URL is the
normalized base URL followed by "/api/v1" followed by the endpoint, and
TLS certificate verification is the negation of `allowUnauthorizedCerts`. -/
theorem C6_buildOptions_uri_tls :
    ∀ (c : Credentials) (method endpoint : String) (body qs : IDataObject),
      c.authType = "basicAuth" ∨ c.authType = "tokenAuth" →
      (buildOptions c method endpoint body qs).uri =
        tolerateTrailingSlash c.baseUrl ++ "/api/v1" ++ endpoint ∧
      (buildOptions c method endpoint body qs).rejectUnauthorized =
        some (! c.allowUnauthorizedCerts) := by
  intro c method endpoint body qs h
  by_cases hb : body.length = 0 <;> by_cases hq : qs.length = 0 <;>
    rcases h with h | h <;>
      simp [buildOptions, h, hb, hq]

/-- Witness for C6 on concrete token credentials with a trailing slash. -/
theorem C6_witness :
    (buildOptions
        { authType := "tokenAuth", baseUrl := "https://h/", username := "", password := "",
          accessToken := "t", allowUnauthorizedCerts := true }
        "GET" "/users" [] []).uri = "https://h/api/v1/users" ∧
    (buildOptions
        { authType := "tokenAuth", baseUrl := "https://h/", username := "", password := "",
          accessToken := "t", allowUnauthorizedCerts := true }
        "GET" "/users" [] []).rejectUnauthorized = some false := by
  have h := C6_buildOptions_uri_tls
    { authType := "tokenAuth", baseUrl := "https://h/", username := "", password := "",
      accessToken := "t", allowUnauthorizedCerts := true }
    "GET" "/users" [] [] (Or.inr rfl)
  constructor
  · rw [h.1]
    decide
  · rw [h.2]
    rfl

/-- C7: with an empty body mapping and an empty query mapping the outgoing
request descriptor contains no body field and no query field at all, while
a non-empty body or query is kept. -/
theorem C7_buildOptions_empty_body_qs :
    ∀ (c : Credentials) (method endpoint : String) (body qs : IDataObject),
      ((buildOptions c method endpoint [] []).body = none ∧
        (buildOptions c method endpoint [] []).qs = none) ∧
      (body ≠ [] → (buildOptions c method endpoint body qs).body = some body) ∧
      (qs ≠ [] → (buildOptions c method endpoint body qs).qs = some qs) := by
  intro c method endpoint body qs
  refine ⟨⟨rfl, rfl⟩, ?_, ?_⟩
  · intro hb
    have hb' : ¬ body.length = 0 := by simpa [List.length_eq_zero] using hb
    simp [buildOptions, hb', apply_ite RequestOptions.body]
  · intro hq
    have hq' : ¬ qs.length = 0 := by simpa [List.length_eq_zero] using hq
    simp [buildOptions, hq', apply_ite RequestOptions.qs]

/-- Witness for C7 at concrete non-empty body and query mappings. -/
theorem C7_witness :
    ((buildOptions
        { authType := "basicAuth", baseUrl := "https://h", username := "u", password := "p",
          accessToken := "", allowUnauthorizedCerts := false }
        "POST" "/users" [] []).body = none) ∧
    ((buildOptions
        { authType := "basicAuth", baseUrl := "https://h", username := "u", password := "p",
          accessToken := "", allowUnauthorizedCerts := false }
        "POST" "/users" [("a", JVal.str "b")] [("q", JVal.num 7)]).body =
      some [("a", JVal.str "b")]) := by
  constructor
  · exact (C7_buildOptions_empty_body_qs
      { authType := "basicAuth", baseUrl := "https://h", username := "u", password := "p",
        accessToken := "", allowUnauthorizedCerts := false }
      "POST" "/users" [] []).1.1
  · exact (C7_buildOptions_empty_body_qs
      { authType := "basicAuth", baseUrl := "https://h", username := "u", password := "p",
        accessToken := "", allowUnauthorizedCerts := false }
      "POST" "/users" [("a", JVal.str "b")] [("q", JVal.num 7)]).2.1 (by decide)

/-! Claim theorems: pagination. -/

/-- Counterexample to C1: with remote pages of sizes 20, 20 and 5 the
fetcher issues 4 requests, not 3 — the non-empty 5-item third page keeps
the do-while loop going, so a fourth (empty) page is fetched. -/
theorem C1_counterexample :
    (zammadApiRequestAllItems
        [List.replicate 20 (0 : Nat), List.replicate 20 0, List.replicate 5 0]
        0 []).requests.length = 4 ∧
    ¬ (zammadApiRequestAllItems
        [List.replicate 20 (0 : Nat), List.replicate 20 0, List.replicate 5 0]
        0 []).requests.length = 3 := by
  constructor <;> decide

/-- C1 (amended): for a paginated fetch with no limit where the remote
returns pages of sizes 20, 20 and 5, the fetcher issues exactly 4 requests
carrying query parameter page = 1, 2, 3, 4 respectively (the fourth
returning the empty page that ends the loop) and returns the 45 items
concatenated in page order. -/
theorem C1_allItems_three_pages {α : Type} (p1 p2 p3 : List α)
    (qs₀ : IDataObject) (h1 : p1.length = 20) (h2 : p2.length = 20)
    (h3 : p3.length = 5) :
    (zammadApiRequestAllItems [p1, p2, p3] 0 qs₀).returnData = p1 ++ p2 ++ p3 ∧
    (zammadApiRequestAllItems [p1, p2, p3] 0 qs₀).returnData.length = 45 ∧
    (zammadApiRequestAllItems [p1, p2, p3] 0 qs₀).requests.map (fun q => getKey q "page") =
      [some (JVal.num 1), some (JVal.num 2), some (JVal.num 3), some (JVal.num 4)] := by
  refine ⟨?_, ?_, ?_⟩ <;>
    simp [zammadApiRequestAllItems, allItemsGo, h1, h2, h3]

/-- Witness for the amended C1 with distinguishable items, showing page
order. -/
theorem C1_witness :
    (zammadApiRequestAllItems
        [List.range 20, (List.range 20).map (fun n => 20 + n),
          (List.range 5).map (fun n => 40 + n)] 0 []).returnData = List.range 45 ∧
    (zammadApiRequestAllItems
        [List.range 20, (List.range 20).map (fun n => 20 + n),
          (List.range 5).map (fun n => 40 + n)] 0 []).requests.map (fun q => getKey q "page") =
      [some (JVal.num 1), some (JVal.num 2), some (JVal.num 3), some (JVal.num 4)] := by
  have h := C1_allItems_three_pages (List.range 20)
    ((List.range 20).map (fun n => 20 + n)) ((List.range 5).map (fun n => 40 + n))
    [] (by decide) (by decide) (by decide)
  refine ⟨?_, h.2.2⟩
  rw [h.1]
  decide

/-- Counterexample to C2: the query object passed by the caller is not
unchanged — an empty caller `qs` holds `per_page = 20` and `page = 2`
after a fetch from an empty remote. -/
theorem C2_counterexample :
    (zammadApiRequestAllItems ([] : List (List Nat)) 0 []).finalQs =
      [("per_page", JVal.num 20), ("page", JVal.num 2)] ∧
    (zammadApiRequestAllItems ([] : List (List Nat)) 0 []).finalQs ≠ [] := by
  constructor <;> decide

/-- C2 (amended): `zammadApiRequestAllItems` mutates the caller's query
object in place: after the call it holds `per_page = 20` and a numeric
`page` counter, while its entries under every other key are unchanged. -/
theorem C2_allItems_qs_mutation {α : Type} (remote : List (List α))
    (limit : Nat) (qs₀ : IDataObject) :
    getKey (zammadApiRequestAllItems remote limit qs₀).finalQs "per_page" =
      some (JVal.num 20) ∧
    (∃ n, getKey (zammadApiRequestAllItems remote limit qs₀).finalQs "page" =
      some (JVal.num n)) ∧
    ∀ k, k ≠ "per_page" → k ≠ "page" →
      getKey (zammadApiRequestAllItems remote limit qs₀).finalQs k = getKey qs₀ k := by
  simp only [zammadApiRequestAllItems]
  refine ⟨?_, ?_, ?_⟩
  · rw [allItemsGo_finalQs_getKey _ _ _ _ _ _ (by decide)]
    rw [getKey_setKey_ne _ _ _ _ (by decide)]
    exact getKey_setKey_self _ _ _
  · exact allItemsGo_finalQs_page _ _ _ _ _ 1 (getKey_setKey_self _ _ _)
  · intro k hk1 hk2
    rw [allItemsGo_finalQs_getKey _ _ _ _ _ _ hk2]
    rw [getKey_setKey_ne _ _ _ _ (fun h => hk2 h.symm)]
    exact getKey_setKey_ne _ _ _ _ (fun h => hk1 h.symm)

/-- Witness for the amended C2: a caller entry under another key survives
while `per_page` has been written. -/
theorem C2_witness :
    getKey (zammadApiRequestAllItems ([[1]] : List (List Nat)) 0
      [("filter", JVal.str "x")]).finalQs "per_page" = some (JVal.num 20) ∧
    getKey (zammadApiRequestAllItems ([[1]] : List (List Nat)) 0
      [("filter", JVal.str "x")]).finalQs "filter" = some (JVal.str "x") := by
  have h := C2_allItems_qs_mutation ([[1]] : List (List Nat)) 0 [("filter", JVal.str "x")]
  refine ⟨h.1, ?_⟩
  rw [h.2.2 "filter" (by decide) (by decide)]
  decide

/-- C3: with limit = 10 and a 20-item first page, the fetcher returns
exactly the first 10 items and issues exactly 1 request; in general, as
soon as a fetched page pushes the accumulated count strictly past a
positive limit, the loop returns the first `limit` items at once,
recording no further request and leaving `qs.page` unincremented. -/
theorem C3_allItems_limit {α : Type} :
    (∀ (p1 : List α) (rest : List (List α)) (qs₀ : IDataObject), p1.length = 20 →
      (zammadApiRequestAllItems (p1 :: rest) 10 qs₀).returnData = p1.take 10 ∧
      (zammadApiRequestAllItems (p1 :: rest) 10 qs₀).requests.length = 1) ∧
    (∀ (limit : Nat) (qs : IDataObject) (acc : List α) (trace : List IDataObject)
        (p : List α) (rest : List (List α)),
      limit ≠ 0 → limit < (acc ++ p).length →
      allItemsGo limit qs acc trace (p :: rest) =
        { returnData := (acc ++ p).take limit, requests := trace ++ [qs], finalQs := qs }) := by
  constructor
  · intro p1 rest qs₀ h1
    constructor <;> simp [zammadApiRequestAllItems, allItemsGo, h1]
  · intro limit qs acc trace p rest hl hlt
    simp only [allItemsGo]
    rw [if_pos ⟨hl, hlt⟩]

/-- Witness for C3 at a concrete 20-item first page. -/
theorem C3_witness :
    (zammadApiRequestAllItems [List.range 20] 10 []).returnData = List.range 10 ∧
    (zammadApiRequestAllItems [List.range 20] 10 []).requests.length = 1 := by
  have h := C3_allItems_limit.1 (List.range 20) [] [] (by decide)
  refine ⟨?_, h.2⟩
  rw [h.1]
  decide

/-- C9: when a fetched non-empty page makes the accumulated count equal a
positive limit exactly, the loop neither stops nor truncates — it
continues into the next iteration and issues at least one further
request; an invocation ends at its first request only when that page is
empty or pushes the count strictly above the limit. -/
theorem C9_allItems_limit_boundary {α : Type} :
    (∀ (limit : Nat) (qs : IDataObject) (acc : List α) (trace : List IDataObject)
        (p : List α) (rest : List (List α)),
      limit ≠ 0 → (acc ++ p).length = limit → p ≠ [] →
      allItemsGo limit qs acc trace (p :: rest) =
        allItemsGo limit (setKey qs "page" (JVal.num (pageOf qs + 1))) (acc ++ p)
          (trace ++ [qs]) rest ∧
      trace.length + 2 ≤ (allItemsGo limit qs acc trace (p :: rest)).requests.length) ∧
    (∀ (limit : Nat) (qs : IDataObject) (acc : List α) (trace : List IDataObject)
        (p : List α) (rest : List (List α)),
      (allItemsGo limit qs acc trace (p :: rest)).requests.length = trace.length + 1 →
      p = [] ∨ (limit ≠ 0 ∧ limit < (acc ++ p).length)) := by
  constructor
  · intro limit qs acc trace p rest hl heq hp
    have hnot : ¬ (limit ≠ 0 ∧ limit < (acc ++ p).length) := by
      rintro ⟨-, hlt⟩
      omega
    have hplen : ¬ p.length = 0 := by simpa [List.length_eq_zero] using hp
    have hstep : allItemsGo limit qs acc trace (p :: rest) =
        allItemsGo limit (setKey qs "page" (JVal.num (pageOf qs + 1))) (acc ++ p)
          (trace ++ [qs]) rest := by
      simp only [allItemsGo]
      rw [if_neg hnot, if_neg hplen]
    refine ⟨hstep, ?_⟩
    rw [hstep]
    have h := allItemsGo_requests_length limit
      (setKey qs "page" (JVal.num (pageOf qs + 1))) (acc ++ p) (trace ++ [qs]) rest
    simpa using h
  · intro limit qs acc trace p rest h
    by_cases hc : limit ≠ 0 ∧ limit < (acc ++ p).length
    · exact Or.inr hc
    · by_cases hp : p.length = 0
      · exact Or.inl (List.length_eq_zero.mp hp)
      · exfalso
        rw [show allItemsGo limit qs acc trace (p :: rest) =
            allItemsGo limit (setKey qs "page" (JVal.num (pageOf qs + 1))) (acc ++ p)
              (trace ++ [qs]) rest from by
          simp only [allItemsGo]
          rw [if_neg hc, if_neg hp]] at h
        have hge := allItemsGo_requests_length limit
          (setKey qs "page" (JVal.num (pageOf qs + 1))) (acc ++ p) (trace ++ [qs]) rest
        rw [h] at hge
        simp at hge

/-- Witness for C9: a 20-item page meeting limit = 20 exactly leads to a
second request. -/
theorem C9_witness :
    2 ≤ (allItemsGo 20 [("page", JVal.num 1)] ([] : List Nat) [] [List.range 20]).requests.length := by
  have h := C9_allItems_limit_boundary.1 20 [("page", JVal.num 1)] [] []
    (List.range 20) [] (by decide) (by decide) (by decide)
  simpa using h.2

end ZammadModel
